import Mathlib

/-!
Shallow embedding of the transcriber batch scripts.

The repository contains three Node scripts:
- transcribe.js: the chunked OpenAI Whisper backend. Oversized audio files
  (over 25 MB) are segmented into roughly 20 MB chunks by duration, each chunk
  is uploaded sequentially, failures are replaced by literal error markers,
  and the parts are joined with a blank line.
- index.js: the direct ElevenLabs backend. Videos are enumerated, audio is
  extracted, a pre-flight size (3 GB) and duration (10 h) check is enforced
  before upload, and files whose transcript already exists are skipped.
- the roles script: reads a transcript, splits it near the midpoint at a
  paragraph or sentence boundary, and sends each half to a chat API.

JavaScript numbers are modelled as rationals; sizes and durations are exact
here, and every comparison reasoned about below is far from any binary
floating point rounding boundary. Effectful calls (ffprobe, ffmpeg, HTTP,
the filesystem) are modelled as oracle functions supplied in an environment
record; each model function returns a trace recording the writes and uploads
the corresponding script function performs.
-/

namespace Transcriber

/-- Model of Node path.join for one separator step. Node additionally
normalizes separators, which no claim here depends on. -/
def pathJoin (a b : String) : String := a ++ "/" ++ b

/-- Model of Node path.basename: the component after the last slash. -/
def basename (p : String) : String :=
  String.mk ((p.data.reverse.takeWhile (fun c => c != '/')).reverse)

/-- Model of Node path.dirname: everything before the last slash, with the
Node conventions for a missing slash and for the root. -/
def dirname (p : String) : String :=
  match p.data.reverse.dropWhile (fun c => c != '/') with
  | [] => "."
  | _ :: rest => if rest.isEmpty then "/" else String.mk rest.reverse

/-- Model of Node path.extname: from the last dot of the basename onward,
empty when there is no dot or the only dot is the leading character. -/
def extname (p : String) : String :=
  let b := (basename p).data
  let after := b.reverse.takeWhile (fun c => c != '.')
  if after.length = b.length then ""
  else if b.length - 1 - after.length = 0 then ""
  else String.mk (b.drop (b.length - 1 - after.length))

/-- Drops the given suffix from a character list when it is present. -/
def dropSfx (b sfx : List Char) : List Char :=
  if sfx.length ≤ b.length ∧ b.drop (b.length - sfx.length) = sfx then
    b.take (b.length - sfx.length)
  else b

/-- Model of path.basename(p, path.extname(p)): the basename with its
extension removed. -/
def basenameNoExt (p : String) : String :=
  String.mk (dropSfx (basename p).data (extname p).data)

/-- Model of String(i).padStart(3, "0") for a nonnegative integer. -/
def padStart3 (i : Nat) : String :=
  let s := toString i
  if s.length < 3 then String.mk (List.replicate (3 - s.length) '0') ++ s else s

/-! ## transcribe.js: configuration constants -/

/-- transcribe.js line 23: OPENAI_API_LIMIT_MB = 25. -/
def OPENAI_API_LIMIT_MB : ℚ := 25

/-- transcribe.js line 24: CHUNK_SIZE_MB = 20. -/
def CHUNK_SIZE_MB : ℚ := 20

/-- transcribe.js line 25: MAX_FILE_SIZE = OPENAI_API_LIMIT_MB * 1024 * 1024. -/
def MAX_FILE_SIZE : ℚ := OPENAI_API_LIMIT_MB * 1024 * 1024

/-- transcribe.js line 26: TARGET_CHUNK_SIZE_BYTES = CHUNK_SIZE_MB * 1024 * 1024. -/
def TARGET_CHUNK_SIZE_BYTES : ℚ := CHUNK_SIZE_MB * 1024 * 1024

/-! ## transcribe.js: the chunk planner (lines 128-129 of splitAudioFile) -/

/-- The chunk plan computed at the start of splitAudioFile. Field names follow
the specification; the source calls them numChunks and chunkDuration. -/
structure ChunkPlan where
  chunkCount : ℤ
  chunkDurationSeconds : ℤ
deriving DecidableEq, Repr

/-- transcribe.js line 128: numChunks = Math.ceil(fileSize / targetChunkSizeBytes). -/
def numChunksOf (sizeBytes targetChunkBytes : ℚ) : ℤ :=
  ⌈sizeBytes / targetChunkBytes⌉

/-- transcribe.js lines 128-129: the pure chunk-planning arithmetic of
splitAudioFile, numChunks = Math.ceil(fileSize / targetChunkSizeBytes) and
chunkDuration = Math.floor(duration / numChunks). -/
def chunkPlan (durationSeconds sizeBytes targetChunkBytes : ℚ) : ChunkPlan :=
  let numChunks := numChunksOf sizeBytes targetChunkBytes
  { chunkCount := numChunks
    chunkDurationSeconds := ⌊durationSeconds / (numChunks : ℚ)⌋ }

/-! ## transcribe.js: splitAudioFile (lines 120-177) -/

/-- The chunk file paths splitAudioFile expects on disk after segmentation:
chunk_000.(ext), chunk_001.(ext), ... in the output directory, one per
planned chunk (lines 150-154). -/
def expectedChunks (inputPath outputDir : String) (sizeBytes targetChunkBytes : ℚ) :
    List String :=
  (List.range (numChunksOf sizeBytes targetChunkBytes).toNat).map
    (fun i => pathJoin outputDir ("chunk_" ++ padStart3 i ++ extname inputPath))

/-- Model of splitAudioFile (lines 120-177). toolError models the ffmpeg
error event; fsExists models fs.existsSync on the produced chunk files.
On the end event the loop collects, in ascending index order, exactly the
expected chunk files that exist (a missing one is only warned about), and
rejects when none exists though at least one was expected. The duration
argument only feeds the segment_time option of the external tool, so it does
not affect the returned value. -/
def splitAudioFile (toolError : Bool) (fsExists : String → Bool)
    (inputPath outputDir : String) (duration fileSize targetChunkSizeBytes : ℚ) :
    Except String (List String) :=
  let numChunks := (numChunksOf fileSize targetChunkSizeBytes).toNat
  if toolError then
    Except.error ("Ошибка при разделении файла " ++ inputPath)
  else
    let chunkPaths := (expectedChunks inputPath outputDir fileSize targetChunkSizeBytes).filter fsExists
    if chunkPaths.length = 0 ∧ 0 < numChunks then
      Except.error ("Не удалось создать ни одного чанка для " ++ inputPath)
    else
      Except.ok chunkPaths

/-! ## transcribe.js: transcribeChunk (lines 71-109) and the chunk loop -/

/-- The error marker transcribeChunk returns from its catch block (line 107). -/
def chunkUploadError (name : String) : String :=
  "[ОШИБКА ТРАНСКРИБАЦИИ ЧАНКА: " ++ name ++ "]"

/-- The error marker the chunk loop pushes from its own catch block
(line 264); n is the 1-based chunk number. -/
def chunkThrowError (n : Nat) : String :=
  "[ОШИБКА ОБРАБОТКИ ЧАНКА " ++ toString n ++ "]"

/-- Model of transcribeChunk (lines 71-109): api models the Whisper POST,
returning the transcript text on success and none on any failure (HTTP
error, network error, or local error). Every failure is caught inside the
function and converted to the literal marker, so the function is total. -/
def transcribeChunk (api : String → Option String) (filePath : String) : String :=
  match api filePath with
  | some text => text
  | none => chunkUploadError (basename filePath)

/-- The transcript part the chunk loop stores for one awaited call:
the resolved string, or the catch-block marker when the call threw
(lines 254-267); n is the 1-based chunk number. -/
def partResult (r : Except String String) (n : Nat) : String :=
  match r with
  | Except.ok t => t
  | Except.error _ => chunkThrowError n

/-- Model of the sequential chunk loop of transcribeFile (lines 246-268):
each chunk is awaited in order and its part (or catch marker) is pushed.
The counter i is the 0-based index of the next chunk. -/
def chunkLoop (call : String → Except String String) :
    List String → Nat → List String
  | [], _ => []
  | p :: rest, i => partResult (call p) (i + 1) :: chunkLoop call rest (i + 1)

/-- The transcript parts transcribeFile collects: the loop applied to the
awaited transcribeChunk calls. transcribeChunk catches every failure of its
own upload, so the awaited promise always resolves (the loop catch block is
defensive). -/
def chunkParts (api : String → Option String) (chunkPaths : List String) : List String :=
  chunkLoop (fun q => Except.ok (transcribeChunk api q)) chunkPaths 0

/-! ## transcribe.js: transcribeFile (lines 185-348) -/

/-- The output path of transcribeFile (lines 293-297): the input basename
with its extension replaced by .txt, next to the input. -/
def outputPathFor (p : String) : String :=
  pathJoin (dirname p) (basenameNoExt p ++ ".txt")

/-- The environment of one transcribe.js run: fs.existsSync, ffprobe
(duration seconds and size bytes, none on probe failure), the Whisper POST
result per uploaded path, the mkdtemp directory name, fs.existsSync on
chunk files after segmentation, and the ffmpeg segmenting error event. -/
structure TranscribeEnv where
  fileExists : String → Bool
  metadata : String → Option (ℚ × ℚ)
  api : String → Option String
  tempDir : String
  chunkExists : String → Bool
  splitToolError : Bool

/-- How transcribeFile ends for one file. -/
inductive FileOutcome where
  | skippedMissing : FileOutcome
  | failed : String → FileOutcome
  | written : String → FileOutcome
deriving DecidableEq

/-- What one transcribeFile call did: its outcome, whether the segmentation
branch was entered, whether a temporary chunk directory was created, the
paths uploaded to the API in order, and the (path, content) pairs written. -/
structure FileTrace where
  outcome : FileOutcome
  segmented : Bool
  tempDirCreated : Bool
  uploads : List String
  writes : List (String × String)
deriving DecidableEq

/-- Model of transcribeFile (lines 185-348). A missing file is skipped; a
probe failure is caught and fails the file. When size > MAX_FILE_SIZE the
temporary directory is created, the file is split, and each chunk is
transcribed sequentially, the parts joined with a blank line; otherwise the
whole file goes through transcribeChunk directly and no temporary directory
is created. The transcript is then written to the output path. -/
def transcribeFileModel (env : TranscribeEnv) (filePath : String) : FileTrace :=
  if env.fileExists filePath = false then
    { outcome := FileOutcome.skippedMissing, segmented := false,
      tempDirCreated := false, uploads := [], writes := [] }
  else
    match env.metadata filePath with
    | none =>
        { outcome := FileOutcome.failed "Ошибка при получении метаданных",
          segmented := false, tempDirCreated := false, uploads := [], writes := [] }
    | some (duration, size) =>
        if MAX_FILE_SIZE < size then
          match splitAudioFile env.splitToolError env.chunkExists filePath
              env.tempDir duration size TARGET_CHUNK_SIZE_BYTES with
          | Except.error e =>
              { outcome := FileOutcome.failed e, segmented := true,
                tempDirCreated := true, uploads := [], writes := [] }
          | Except.ok chunkPaths =>
              if chunkPaths.length = 0 then
                { outcome := FileOutcome.failed "Не удалось разделить файл на части.",
                  segmented := true, tempDirCreated := true, uploads := [], writes := [] }
              else
                let transcript := String.intercalate "\n\n" (chunkParts env.api chunkPaths)
                { outcome := FileOutcome.written transcript, segmented := true,
                  tempDirCreated := true, uploads := chunkPaths,
                  writes := [(outputPathFor filePath, transcript)] }
        else
          let transcript := transcribeChunk env.api filePath
          { outcome := FileOutcome.written transcript, segmented := false,
            tempDirCreated := false, uploads := [filePath],
            writes := [(outputPathFor filePath, transcript)] }

/-! ## index.js: the ElevenLabs batch driver -/

/-- index.js line 24: MAX_FILE_SIZE_GB = 3. -/
def MAX_FILE_SIZE_GB : ℚ := 3

/-- index.js line 25: MAX_DURATION_HOURS = 10. -/
def MAX_DURATION_HOURS : ℚ := 10

/-- The size-limit error message of transcribeAudioFile (up to the
interpolated numbers, which carry no logic). -/
def sizeLimitError : String := "File exceeds size limit"

/-- The duration-limit error message of transcribeAudioFile. -/
def durationLimitError : String := "File exceeds duration limit"

/-- The environment of one index.js run: fs.existsSync, ffprobe, the
ElevenLabs POST result per uploaded path (none when the request throws), and
whether audio extraction succeeds. -/
structure ScribeEnv where
  fileExists : String → Bool
  metadata : String → Option (ℚ × ℚ)
  api : String → Option String
  extractOk : Bool

/-- What one transcribeAudioFile call did: probed paths, uploaded paths,
written (path, content) pairs, and the caught error if any. -/
structure AudioTrace where
  probes : List String
  uploads : List String
  writes : List (String × String)
  errored : Option String
deriving DecidableEq

/-- Model of transcribeAudioFile (index.js lines 326-384): probe, then the
pre-flight size and duration limit checks (size first), then the upload,
then the write. A thrown limit error is caught by the same function, which
logs it and returns without writing; an upload failure likewise leaves no
write. -/
def transcribeAudioFileModel (env : ScribeEnv) (filePath outputPath : String) :
    AudioTrace :=
  match env.metadata filePath with
  | none =>
      { probes := [filePath], uploads := [], writes := [],
        errored := some "Error getting metadata" }
  | some (duration, size) =>
      if MAX_FILE_SIZE_GB < size / (1024 * 1024 * 1024) then
        { probes := [filePath], uploads := [], writes := [],
          errored := some sizeLimitError }
      else if MAX_DURATION_HOURS < duration / 3600 then
        { probes := [filePath], uploads := [], writes := [],
          errored := some durationLimitError }
      else
        match env.api filePath with
        | none =>
            { probes := [filePath], uploads := [filePath], writes := [],
              errored := some "upload error" }
        | some text =>
            { probes := [filePath], uploads := [filePath],
              writes := [(outputPath, text)], errored := none }

/-- index.js line 401: the extracted-audio path of a video. -/
def audioPathFor (videoPath : String) : String :=
  pathJoin "./audio" (basenameNoExt videoPath ++ ".mp3")

/-- index.js line 402: the transcript path of a video. -/
def textPathFor (videoPath : String) : String :=
  pathJoin "./text" (basenameNoExt videoPath ++ ".txt")

/-- What one processVideoFile call did. -/
structure VideoTrace where
  skippedExisting : Bool
  extracted : Bool
  probes : List String
  uploads : List String
  writes : List (String × String)
deriving DecidableEq

/-- Model of processVideoFile (index.js lines 392-441): when the transcript
file already exists the video is skipped entirely, before any extraction,
probe, or upload; otherwise audio is extracted when absent and
transcribeAudioFile runs on it. -/
def processVideoFileModel (env : ScribeEnv) (videoPath : String) : VideoTrace :=
  let audioPath := audioPathFor videoPath
  let textPath := textPathFor videoPath
  if env.fileExists textPath then
    { skippedExisting := true, extracted := false,
      probes := [], uploads := [], writes := [] }
  else if env.fileExists audioPath = false then
    if env.extractOk then
      let t := transcribeAudioFileModel env audioPath textPath
      { skippedExisting := false, extracted := true,
        probes := t.probes, uploads := t.uploads, writes := t.writes }
    else
      { skippedExisting := false, extracted := true,
        probes := [], uploads := [], writes := [] }
  else
    let t := transcribeAudioFileModel env audioPath textPath
    { skippedExisting := false, extracted := false,
      probes := t.probes, uploads := t.uploads, writes := t.writes }

/-! ## The roles script: midpoint text splitting -/

/-- The paragraph separator searched for first. -/
def nnSep : String := "\n\n"

/-- The sentence separator searched for second. -/
def dotSep : String := ". "

/-- Whether needle occurs in hay starting at index j. -/
def isMatchAt (hay needle : List Char) (j : Nat) : Bool :=
  (hay.drop j).take needle.length == needle

/-- Model of JavaScript String.prototype.lastIndexOf(sub, fromIndex): the
largest start index at most fromIndex where sub occurs, none when there is
no such occurrence (the source compares against -1). -/
def strLastIndexOf (s sub : String) (fromIndex : Nat) : Option Nat :=
  ((List.range (fromIndex + 1)).filter (fun j => isMatchAt s.data sub.data j)).getLast?

/-- Model of the break-point computation of processTranscriptFile: take the
midpoint, look for the last double newline at or before it, otherwise the
last ". "; fall back to the exact midpoint when nothing was found or the
found separator is more than 20 percent of the length before the midpoint;
otherwise cut just after the separator. The 0.2 literal is modelled as the
exact rational 1/5: every comparison proved about below is at integer
distance at least 1/5 from the threshold, far beyond the binary floating
point error of the source expression. -/
def computeBreakPoint (text : String) : Nat :=
  let len := text.length
  let midpoint := len / 2
  let found :=
    match strLastIndexOf text nnSep midpoint with
    | some b => some b
    | none => strLastIndexOf text dotSep midpoint
  match found with
  | none => midpoint
  | some b =>
      if ((midpoint : ℚ) - (b : ℚ)) > (len : ℚ) / 5 then midpoint
      else b + 2

/-- Model of the two substring halves of processTranscriptFile:
chunk1 = text.substring(0, breakPoint), chunk2 = text.substring(breakPoint). -/
def splitTranscript (text : String) : String × String :=
  let bp := computeBreakPoint text
  (String.mk (text.data.take bp), String.mk (text.data.drop bp))

/-! ## Concrete environments and inputs used by witnesses -/

/-- A transcript of length 100 whose only double newline starts at index 5
and whose only ". " starts at index 45; the midpoint is 50. -/
def cexText : String :=
  String.mk (List.replicate 5 'a' ++ ['\n', '\n'] ++ List.replicate 38 'a'
    ++ ['.', ' '] ++ List.replicate 53 'a')

/-- A transcript of length 200 whose only double newline starts at index 96,
which is 48 percent of the length; the midpoint is 100. -/
def niceText : String :=
  String.mk (List.replicate 96 'a' ++ ['\n', '\n'] ++ List.replicate 102 'a')

/-- An oversized-file environment: a 30 MB, 5400 s file, both chunk files
present after splitting, the first chunk upload succeeding and the second
failing. -/
def envA : TranscribeEnv where
  fileExists := fun _ => true
  metadata := fun _ => some (5400, 30 * 1024 * 1024)
  api := fun q => if q = "/tmp/job/chunk_000.mp3" then some "part one" else none
  tempDir := "/tmp/job"
  chunkExists := fun _ => true
  splitToolError := false

/-- The two chunk paths envA produces for /audio/lec.mp3. -/
def chunkListA : List String :=
  ["/tmp/job/chunk_000.mp3", "/tmp/job/chunk_001.mp3"]

/-- A small-file environment whose only upload always fails. -/
def envB : TranscribeEnv where
  fileExists := fun _ => true
  metadata := fun _ => some (60, 1024)
  api := fun _ => none
  tempDir := "/tmp/job"
  chunkExists := fun _ => false
  splitToolError := false

/-- An index.js environment in which every transcript file already exists. -/
def envS : ScribeEnv where
  fileExists := fun _ => true
  metadata := fun _ => none
  api := fun _ => none
  extractOk := true

/-- An index.js environment reporting a 4 GB file. -/
def envT : ScribeEnv where
  fileExists := fun _ => false
  metadata := fun _ => some (100, 4 * 1024 * 1024 * 1024)
  api := fun _ => none
  extractOk := true

/-! ## Helper lemmas -/

/-- The loop produces one transcript part per chunk. -/
theorem chunkLoop_length (call : String → Except String String)
    (ps : List String) (k : Nat) :
    (chunkLoop call ps k).length = ps.length := by
  induction ps generalizing k with
  | nil => rfl
  | cons p rest ih => simp [chunkLoop, ih]

/-- The transcript part at index i comes from the chunk at index i, with the
1-based chunk number shifted by the starting counter. -/
theorem chunkLoop_get? (call : String → Except String String)
    (ps : List String) (k i : Nat) :
    (chunkLoop call ps k).get? i =
      (ps.get? i).map (fun q => partResult (call q) (k + i + 1)) := by
  induction ps generalizing k i with
  | nil => simp [chunkLoop]
  | cons p rest ih =>
      cases i with
      | zero => simp [chunkLoop]
      | succ j =>
          have e : k + 1 + j + 1 = k + (j + 1) + 1 := by omega
          simpa [chunkLoop, e] using ih (k + 1) j

/-- A 30 MB file against the 20 MB budget plans 2 chunks. -/
theorem numChunks_30_20 :
    numChunksOf (30 * 1024 * 1024) (20 * 1024 * 1024) = 2 := by
  norm_num [numChunksOf, Int.ceil_eq_iff]

/-- A 30 MB file against the configured budget plans 2 chunks. -/
theorem numChunks_30_target :
    numChunksOf (30 * 1024 * 1024) TARGET_CHUNK_SIZE_BYTES = 2 := by
  norm_num [numChunksOf, TARGET_CHUNK_SIZE_BYTES, CHUNK_SIZE_MB, Int.ceil_eq_iff]

/-- In environment envA, splitting the 30 MB file yields both chunk paths. -/
theorem splitAudioFile_envA :
    splitAudioFile envA.splitToolError envA.chunkExists "/audio/lec.mp3"
        envA.tempDir 5400 (30 * 1024 * 1024) TARGET_CHUNK_SIZE_BYTES =
      Except.ok chunkListA := by
  simp only [splitAudioFile, expectedChunks, numChunks_30_target]
  rfl

/-! ## Claim theorems -/

/-- Claim C1: for every durationSeconds > 0, sizeBytes > 0 and
targetChunkBytes > 0, the chunk planner deterministically returns
chunkCount = ceil(sizeBytes / targetChunkBytes), which is at least 1, and
chunkDurationSeconds = floor(durationSeconds / chunkCount), which is at
least 0; for duration 5400 s, size 30 MB and budget 20 MB it returns
chunkCount = 2 and chunkDurationSeconds = 2700. Determinism holds because
chunkPlan is a pure function of its three arguments. -/
theorem chunkPlanner_spec (d s t : ℚ) (hd : 0 < d) (hs : 0 < s) (ht : 0 < t) :
    (chunkPlan d s t).chunkCount = ⌈s / t⌉ ∧
    1 ≤ (chunkPlan d s t).chunkCount ∧
    (chunkPlan d s t).chunkDurationSeconds = ⌊d / ((⌈s / t⌉ : ℤ) : ℚ)⌋ ∧
    0 ≤ (chunkPlan d s t).chunkDurationSeconds ∧
    chunkPlan 5400 (30 * 1024 * 1024) (20 * 1024 * 1024) = ChunkPlan.mk 2 2700 := by
  have hc : (0 : ℤ) < ⌈s / t⌉ := Int.ceil_pos.mpr (div_pos hs ht)
  have hcQ : (0 : ℚ) < ((⌈s / t⌉ : ℤ) : ℚ) := by exact_mod_cast hc
  refine ⟨rfl, ?_, rfl, ?_, ?_⟩
  · show (1 : ℤ) ≤ ⌈s / t⌉
    omega
  · show (0 : ℤ) ≤ ⌊d / ((⌈s / t⌉ : ℤ) : ℚ)⌋
    exact Int.floor_nonneg.mpr (le_of_lt (div_pos hd hcQ))
  · simp only [chunkPlan, numChunks_30_20]
    norm_num [ChunkPlan.mk.injEq]

/-- Witness for C1 at the scenario inputs of the specification. -/
theorem chunkPlanner_spec_witness :
    (0 : ℚ) < 5400 ∧ (0 : ℚ) < 30 * 1024 * 1024 ∧ (0 : ℚ) < 20 * 1024 * 1024 ∧
    chunkPlan 5400 (30 * 1024 * 1024) (20 * 1024 * 1024) = ChunkPlan.mk 2 2700 :=
  ⟨by norm_num, by norm_num, by norm_num,
    (chunkPlanner_spec 5400 (30 * 1024 * 1024) (20 * 1024 * 1024)
      (by norm_num) (by norm_num) (by norm_num)).2.2.2.2⟩

/-- Counterexample to claim C3 as stated: with durationSeconds = 1,
sizeBytes = 3 and targetChunkBytes = 1, all three inputs are positive yet
chunkDurationSeconds = floor(1 / 3) = 0, not at least 1. -/
theorem chunkPlan_short_duration_cex :
    (0 : ℚ) < 1 ∧ (0 : ℚ) < 3 ∧ (0 : ℚ) < 1 ∧
    chunkPlan 1 3 1 = ChunkPlan.mk 3 0 ∧
    ¬ 1 ≤ (chunkPlan 1 3 1).chunkDurationSeconds := by
  have hceil : numChunksOf (3 : ℚ) 1 = 3 := by
    norm_num [numChunksOf, Int.ceil_eq_iff]
  have hpl : chunkPlan 1 3 1 = ChunkPlan.mk 3 0 := by
    simp only [chunkPlan, hceil]
    norm_num [ChunkPlan.mk.injEq, Int.floor_eq_iff]
  refine ⟨by norm_num, by norm_num, by norm_num, hpl, ?_⟩
  rw [hpl]
  decide

/-- Claim C3 (amended): for every durationSeconds > 0, sizeBytes > 0 and
targetChunkBytes > 0, the plan satisfies chunkCount ≥ 1,
chunkDurationSeconds ≥ 0 (not ≥ 1: the floor is 0 whenever the duration is
shorter than the chunk count), and
chunkCount * chunkDurationSeconds ≤ durationSeconds. -/
theorem chunkPlan_invariant (d s t : ℚ) (hd : 0 < d) (hs : 0 < s) (ht : 0 < t) :
    1 ≤ (chunkPlan d s t).chunkCount ∧
    0 ≤ (chunkPlan d s t).chunkDurationSeconds ∧
    ((chunkPlan d s t).chunkCount : ℚ) *
      ((chunkPlan d s t).chunkDurationSeconds : ℚ) ≤ d := by
  have hc : (0 : ℤ) < ⌈s / t⌉ := Int.ceil_pos.mpr (div_pos hs ht)
  have hcQ : (0 : ℚ) < ((⌈s / t⌉ : ℤ) : ℚ) := by exact_mod_cast hc
  refine ⟨?_, ?_, ?_⟩
  · show (1 : ℤ) ≤ ⌈s / t⌉
    omega
  · show (0 : ℤ) ≤ ⌊d / ((⌈s / t⌉ : ℤ) : ℚ)⌋
    exact Int.floor_nonneg.mpr (le_of_lt (div_pos hd hcQ))
  · show ((⌈s / t⌉ : ℤ) : ℚ) * ((⌊d / ((⌈s / t⌉ : ℤ) : ℚ)⌋ : ℤ) : ℚ) ≤ d
    calc ((⌈s / t⌉ : ℤ) : ℚ) * ((⌊d / ((⌈s / t⌉ : ℤ) : ℚ)⌋ : ℤ) : ℚ)
        ≤ ((⌈s / t⌉ : ℤ) : ℚ) * (d / ((⌈s / t⌉ : ℤ) : ℚ)) :=
          mul_le_mul_of_nonneg_left (Int.floor_le _) (le_of_lt hcQ)
      _ = d := by field_simp

/-- Witness for C3 (amended) at the scenario inputs. -/
theorem chunkPlan_invariant_witness :
    1 ≤ (chunkPlan 5400 (30 * 1024 * 1024) (20 * 1024 * 1024)).chunkCount ∧
    0 ≤ (chunkPlan 5400 (30 * 1024 * 1024) (20 * 1024 * 1024)).chunkDurationSeconds ∧
    ((chunkPlan 5400 (30 * 1024 * 1024) (20 * 1024 * 1024)).chunkCount : ℚ) *
      ((chunkPlan 5400 (30 * 1024 * 1024) (20 * 1024 * 1024)).chunkDurationSeconds : ℚ) ≤ 5400 :=
  chunkPlan_invariant 5400 (30 * 1024 * 1024) (20 * 1024 * 1024)
    (by norm_num) (by norm_num) (by norm_num)

/-- Claim C4: after the segmenting tool reports completion, splitAudioFile
returns the ordered list of exactly those expected zero-padded chunk paths
that exist on disk, and it fails if and only if the tool reported an error
or no expected chunk file exists while at least one was expected. -/
theorem splitAudioFile_spec (tErr : Bool) (fsExists : String → Bool)
    (inp dir : String) (d s t : ℚ) :
    (splitAudioFile tErr fsExists inp dir d s t =
        Except.ok ((expectedChunks inp dir s t).filter fsExists) ↔
      ¬(tErr = true ∨ ((expectedChunks inp dir s t).filter fsExists = [] ∧
          0 < (numChunksOf s t).toNat))) ∧
    ((∃ e, splitAudioFile tErr fsExists inp dir d s t = Except.error e) ↔
      (tErr = true ∨ ((expectedChunks inp dir s t).filter fsExists = [] ∧
          0 < (numChunksOf s t).toNat))) := by
  unfold splitAudioFile
  cases tErr with
  | true => simp
  | false =>
      by_cases hc : ((expectedChunks inp dir s t).filter fsExists) = [] ∧
          0 < (numChunksOf s t).toNat
      · rw [if_neg (by simp), if_pos (by simpa [List.length_eq_zero] using hc)]
        refine ⟨⟨fun he => absurd he (by simp), fun hn => absurd (Or.inr hc) hn⟩,
          fun _ => Or.inr hc, fun _ => ⟨_, rfl⟩⟩
      · rw [if_neg (by simp), if_neg (by simpa [List.length_eq_zero] using hc)]
        refine ⟨⟨fun _ => ?_, fun _ => rfl⟩,
          ⟨fun he => ?_, fun hor => ?_⟩⟩
        · rintro (h | h)
          · simp at h
          · exact hc h
        · rcases he with ⟨e, he⟩
          simp at he
        · rcases hor with h | h
          · simp at h
          · exact absurd h hc

/-- Witness for C4: with both chunk files present, the split succeeds with
the filtered expected list. -/
theorem splitAudioFile_spec_witness :
    splitAudioFile false (fun _ => true) "/audio/lec.mp3" "/tmp/job" 5400
        (30 * 1024 * 1024) (20 * 1024 * 1024) =
      Except.ok ((expectedChunks "/audio/lec.mp3" "/tmp/job"
        (30 * 1024 * 1024) (20 * 1024 * 1024)).filter (fun _ => true)) := by
  refine ((splitAudioFile_spec false (fun _ => true) "/audio/lec.mp3" "/tmp/job"
      5400 (30 * 1024 * 1024) (20 * 1024 * 1024)).1).mpr ?_
  simp only [expectedChunks, numChunks_30_20]
  decide

/-- Claim C2: in the chunked loop, every awaited chunk call that fails is
caught and its part replaced by a literal error marker, the loop continues,
and the final transcript is the blank-line join of the parts in ascending
chunk order, an upload failure inside transcribeChunk being replaced by the
marker naming the chunk and a success appearing verbatim. -/
theorem chunkLoop_spec (env : TranscribeEnv) (p : String) (d s : ℚ)
    (ps : List String)
    (h1 : env.fileExists p = true)
    (h2 : env.metadata p = some (d, s))
    (h3 : MAX_FILE_SIZE < s)
    (h4 : splitAudioFile env.splitToolError env.chunkExists p env.tempDir d s
        TARGET_CHUNK_SIZE_BYTES = Except.ok ps)
    (h5 : ps ≠ []) :
    (transcribeFileModel env p).outcome =
      FileOutcome.written (String.intercalate "\n\n" (chunkParts env.api ps)) ∧
    (chunkParts env.api ps).length = ps.length ∧
    (∀ i q, ps.get? i = some q →
        (chunkParts env.api ps).get? i = some (transcribeChunk env.api q)) ∧
    (∀ q t, env.api q = some t → transcribeChunk env.api q = t) ∧
    (∀ q, env.api q = none →
        transcribeChunk env.api q = chunkUploadError (basename q)) ∧
    (∀ e n, partResult (Except.error e) n = chunkThrowError n) := by
  have h5' : ¬ ps.length = 0 := by simpa [List.length_eq_zero] using h5
  refine ⟨?_, chunkLoop_length _ _ _, ?_, ?_, ?_, fun e n => rfl⟩
  · simp [transcribeFileModel, h1, h2, h3, h4, h5']
  · intro i q hq
    simp only [chunkParts]
    rw [chunkLoop_get?, hq]
    rfl
  · intro q t ht
    simp [transcribeChunk, ht]
  · intro q hq
    simp [transcribeChunk, hq]

/-- Witness for C2 in environment envA: two chunks, the second upload
failing. -/
theorem chunkLoop_spec_witness :
    (transcribeFileModel envA "/audio/lec.mp3").outcome =
      FileOutcome.written (String.intercalate "\n\n" (chunkParts envA.api chunkListA)) ∧
    (chunkParts envA.api chunkListA).length = chunkListA.length ∧
    (∀ i q, chunkListA.get? i = some q →
        (chunkParts envA.api chunkListA).get? i = some (transcribeChunk envA.api q)) ∧
    (∀ q t, envA.api q = some t → transcribeChunk envA.api q = t) ∧
    (∀ q, envA.api q = none →
        transcribeChunk envA.api q = chunkUploadError (basename q)) ∧
    (∀ e n, partResult (Except.error e) n = chunkThrowError n) :=
  chunkLoop_spec envA "/audio/lec.mp3" 5400 (30 * 1024 * 1024) chunkListA
    rfl rfl (by norm_num [MAX_FILE_SIZE, OPENAI_API_LIMIT_MB])
    splitAudioFile_envA (by decide)

/-- Claim C5: size strictly above MAX_FILE_SIZE = 25 * 1024 * 1024 bytes
takes the segmentation branch and creates a temporary chunk directory;
otherwise exactly one direct transcription call is made on the whole file
and no temporary chunk directory is created. -/
theorem sizeGate_spec (env : TranscribeEnv) (p : String) (d s : ℚ)
    (h1 : env.fileExists p = true)
    (h2 : env.metadata p = some (d, s)) :
    MAX_FILE_SIZE = 25 * 1024 * 1024 ∧
    (MAX_FILE_SIZE < s →
      (transcribeFileModel env p).segmented = true ∧
      (transcribeFileModel env p).tempDirCreated = true) ∧
    (¬ MAX_FILE_SIZE < s →
      (transcribeFileModel env p).segmented = false ∧
      (transcribeFileModel env p).tempDirCreated = false ∧
      (transcribeFileModel env p).uploads = [p]) := by
  refine ⟨by norm_num [MAX_FILE_SIZE, OPENAI_API_LIMIT_MB], ?_, ?_⟩
  · intro h
    simp only [transcribeFileModel, h1, h2]
    cases hsp : splitAudioFile env.splitToolError env.chunkExists p env.tempDir
        d s TARGET_CHUNK_SIZE_BYTES with
    | error e => simp [h, hsp]
    | ok l =>
        by_cases hl : l.length = 0
        · simp [h, hsp, hl]
        · simp [h, hsp, hl]
  · intro h
    simp [transcribeFileModel, h1, h2, h]

/-- Witness for C5 in environment envA (an oversized file). -/
theorem sizeGate_spec_witness :
    MAX_FILE_SIZE = 25 * 1024 * 1024 ∧
    (MAX_FILE_SIZE < 30 * 1024 * 1024 →
      (transcribeFileModel envA "/audio/lec.mp3").segmented = true ∧
      (transcribeFileModel envA "/audio/lec.mp3").tempDirCreated = true) ∧
    (¬ MAX_FILE_SIZE < 30 * 1024 * 1024 →
      (transcribeFileModel envA "/audio/lec.mp3").segmented = false ∧
      (transcribeFileModel envA "/audio/lec.mp3").tempDirCreated = false ∧
      (transcribeFileModel envA "/audio/lec.mp3").uploads = ["/audio/lec.mp3"]) :=
  sizeGate_spec envA "/audio/lec.mp3" 5400 (30 * 1024 * 1024) rfl rfl

/-- Claim C9: transcribeChunk is total, converts any upload failure into the
literal marker naming the chunk, and in the small-file path of
transcribeFile an upload failure therefore still produces a written output
file whose entire content is that marker. -/
theorem transcribeChunk_total_spec (env : TranscribeEnv) (p : String) (d s : ℚ)
    (h1 : env.fileExists p = true)
    (h2 : env.metadata p = some (d, s))
    (h3 : ¬ MAX_FILE_SIZE < s)
    (h4 : env.api p = none) :
    (∀ q, env.api q = none →
        transcribeChunk env.api q = chunkUploadError (basename q)) ∧
    (∀ q t, env.api q = some t → transcribeChunk env.api q = t) ∧
    (transcribeFileModel env p).outcome =
      FileOutcome.written (chunkUploadError (basename p)) ∧
    (transcribeFileModel env p).writes =
      [(outputPathFor p, chunkUploadError (basename p))] := by
  have hm : transcribeChunk env.api p = chunkUploadError (basename p) := by
    simp [transcribeChunk, h4]
  refine ⟨fun q hq => by simp [transcribeChunk, hq],
    fun q t ht => by simp [transcribeChunk, ht], ?_, ?_⟩
  · simp [transcribeFileModel, h1, h2, h3, hm]
  · simp [transcribeFileModel, h1, h2, h3, hm]

/-- Witness for C9 in environment envB: a small file whose upload fails. -/
theorem transcribeChunk_total_spec_witness :
    (∀ q, envB.api q = none →
        transcribeChunk envB.api q = chunkUploadError (basename q)) ∧
    (∀ q t, envB.api q = some t → transcribeChunk envB.api q = t) ∧
    (transcribeFileModel envB "/audio/small.mp3").outcome =
      FileOutcome.written (chunkUploadError (basename "/audio/small.mp3")) ∧
    (transcribeFileModel envB "/audio/small.mp3").writes =
      [(outputPathFor "/audio/small.mp3",
        chunkUploadError (basename "/audio/small.mp3"))] :=
  transcribeChunk_total_spec envB "/audio/small.mp3" 60 1024
    rfl rfl (by norm_num [MAX_FILE_SIZE, OPENAI_API_LIMIT_MB]) rfl

/-- Claim C7: in the direct ElevenLabs flow, a probed file over 3 GB or over
10 hours fails the pre-flight limit check before any upload: nothing is
uploaded and nothing is written. -/
theorem preflightLimit_spec (env : ScribeEnv) (f out : String) (d s : ℚ)
    (hm : env.metadata f = some (d, s))
    (hlim : MAX_FILE_SIZE_GB * (1024 * 1024 * 1024) < s ∨
      MAX_DURATION_HOURS * 3600 < d) :
    ((transcribeAudioFileModel env f out).errored = some sizeLimitError ∨
      (transcribeAudioFileModel env f out).errored = some durationLimitError) ∧
    (transcribeAudioFileModel env f out).uploads = [] ∧
    (transcribeAudioFileModel env f out).writes = [] := by
  by_cases hs : MAX_FILE_SIZE_GB < s / (1024 * 1024 * 1024)
  · refine ⟨Or.inl ?_, ?_, ?_⟩ <;> simp [transcribeAudioFileModel, hm, hs]
  · have hd : MAX_DURATION_HOURS < d / 3600 := by
      rcases hlim with h | h
      · exact absurd ((lt_div_iff₀ (by norm_num)).mpr h) hs
      · exact (lt_div_iff₀ (by norm_num)).mpr h
    refine ⟨Or.inr ?_, ?_, ?_⟩ <;> simp [transcribeAudioFileModel, hm, hs, hd]

/-- Witness for C7 in environment envT: a 4 GB file. -/
theorem preflightLimit_spec_witness :
    ((transcribeAudioFileModel envT "a.mp3" "a.txt").errored = some sizeLimitError ∨
      (transcribeAudioFileModel envT "a.mp3" "a.txt").errored = some durationLimitError) ∧
    (transcribeAudioFileModel envT "a.mp3" "a.txt").uploads = [] ∧
    (transcribeAudioFileModel envT "a.mp3" "a.txt").writes = [] :=
  preflightLimit_spec envT "a.mp3" "a.txt" 100 (4 * 1024 * 1024 * 1024) rfl
    (Or.inl (by norm_num [MAX_FILE_SIZE_GB]))

/-- Claim C8: when the transcript file of a video already exists, the batch
driver skips the video entirely: no extraction, no probe, no upload, and no
write, so the pre-existing output is left untouched. -/
theorem skipExisting_spec (env : ScribeEnv) (v : String)
    (h : env.fileExists (textPathFor v) = true) :
    (processVideoFileModel env v).skippedExisting = true ∧
    (processVideoFileModel env v).extracted = false ∧
    (processVideoFileModel env v).probes = [] ∧
    (processVideoFileModel env v).uploads = [] ∧
    (processVideoFileModel env v).writes = [] := by
  simp [processVideoFileModel, h]

/-- Witness for C8 in environment envS, where every output exists. -/
theorem skipExisting_spec_witness :
    (processVideoFileModel envS "./video/a.mp4").skippedExisting = true ∧
    (processVideoFileModel envS "./video/a.mp4").extracted = false ∧
    (processVideoFileModel envS "./video/a.mp4").probes = [] ∧
    (processVideoFileModel envS "./video/a.mp4").uploads = [] ∧
    (processVideoFileModel envS "./video/a.mp4").writes = [] :=
  skipExisting_spec envS "./video/a.mp4" rfl

/-- Counterexample to claim C6 as stated: in cexText the only double newline
before the midpoint is far from it (45 characters, more than 20 percent of
length 100) while a ". " lies 5 characters before the midpoint, well within
20 percent; the claim then requires the split at that ". " (index 47 after
the separator), but the code falls back to the exact midpoint 50 because the
". " search only runs when no double newline was found at all. -/
theorem textSplit_fallback_cex :
    strLastIndexOf cexText nnSep (cexText.length / 2) = some 5 ∧
    strLastIndexOf cexText dotSep (cexText.length / 2) = some 45 ∧
    (((cexText.length / 2 : ℕ) : ℚ) - (45 : ℚ) ≤ (cexText.length : ℚ) / 5) ∧
    computeBreakPoint cexText = cexText.length / 2 ∧
    ¬ computeBreakPoint cexText = 47 := by
  have hnn : strLastIndexOf cexText nnSep (cexText.length / 2) = some 5 := by
    decide
  have hdot : strLastIndexOf cexText dotSep (cexText.length / 2) = some 45 := by
    decide
  have hlen : cexText.length = 100 := by decide
  have hnn50 : strLastIndexOf cexText nnSep 50 = some 5 := by decide
  have hbp : computeBreakPoint cexText = cexText.length / 2 := by
    simp only [computeBreakPoint, hlen]
    norm_num [hnn50]
  refine ⟨hnn, hdot, ?_, hbp, ?_⟩
  · rw [hlen]
    norm_num
  · rw [hbp, hlen]
    decide

/-- Claim C6 (amended): the split point prefers the last double newline at
or before the midpoint, cutting just after it when it lies within 20 percent
of the length before the midpoint and falling back to the exact midpoint
otherwise; the ". " search is consulted only when no double newline occurs
at or before the midpoint, with the same 20 percent rule; the exact midpoint
is used when neither separator is found. In particular a transcript whose
only double newline sits at 48 percent of its length splits at that double
newline, not at the exact midpoint. -/
theorem computeBreakPoint_spec (text : String) :
    (∀ b, strLastIndexOf text nnSep (text.length / 2) = some b →
        computeBreakPoint text =
          if (((text.length / 2 : ℕ) : ℚ) - (b : ℚ)) > (text.length : ℚ) / 5
          then text.length / 2 else b + 2) ∧
    (strLastIndexOf text nnSep (text.length / 2) = none →
      (∀ b, strLastIndexOf text dotSep (text.length / 2) = some b →
          computeBreakPoint text =
            if (((text.length / 2 : ℕ) : ℚ) - (b : ℚ)) > (text.length : ℚ) / 5
            then text.length / 2 else b + 2) ∧
      (strLastIndexOf text dotSep (text.length / 2) = none →
          computeBreakPoint text = text.length / 2)) := by
  refine ⟨?_, ?_⟩
  · intro b hb
    simp only [computeBreakPoint, hb]
  · intro hnn
    refine ⟨?_, ?_⟩
    · intro b hb
      simp only [computeBreakPoint, hnn, hb]
    · intro hdot
      simp only [computeBreakPoint, hnn, hdot]

set_option maxRecDepth 8000 in
/-- Witness for C6 (amended): niceText has its only double newline at index
96 of 200 characters, 48 percent of the length; the split point is 98, just
after that double newline, not the midpoint 100. -/
theorem computeBreakPoint_spec_witness :
    strLastIndexOf niceText nnSep (niceText.length / 2) = some 96 ∧
    computeBreakPoint niceText = 98 ∧
    ¬ computeBreakPoint niceText = niceText.length / 2 := by
  have hnn : strLastIndexOf niceText nnSep (niceText.length / 2) = some 96 := by
    decide
  have hlen : niceText.length = 200 := by decide
  have hbp : computeBreakPoint niceText = 98 := by
    have h := (computeBreakPoint_spec niceText).1 96 hnn
    rw [h, hlen]
    norm_num
  refine ⟨hnn, hbp, ?_⟩
  rw [hbp, hlen]
  decide

/-- Claim C10: for every non-empty transcript, the two halves are the prefix
up to the computed break point and the remaining suffix, and their
concatenation is the original string. -/
theorem splitTranscript_partition (text : String) (h : text ≠ "") :
    (splitTranscript text).1 = String.mk (text.data.take (computeBreakPoint text)) ∧
    (splitTranscript text).2 = String.mk (text.data.drop (computeBreakPoint text)) ∧
    (splitTranscript text).1 ++ (splitTranscript text).2 = text := by
  have happ : ∀ (l1 l2 : List Char),
      String.mk l1 ++ String.mk l2 = String.mk (l1 ++ l2) := fun _ _ => rfl
  refine ⟨rfl, rfl, ?_⟩
  cases text with
  | mk data =>
      simp only [splitTranscript, happ]
      rw [List.take_append_drop]

/-- Witness for C10 on the transcript "ab". -/
theorem splitTranscript_partition_witness :
    ("ab" : String) ≠ "" ∧
    (splitTranscript "ab").1 ++ (splitTranscript "ab").2 = "ab" :=
  ⟨by decide, (splitTranscript_partition "ab" (by decide)).2.2⟩

end Transcriber
